import Mathlib

/-!
Shallow embedding of the Modex clinic booking backend (TypeScript + PostgreSQL)
and proofs about its booking allocator, entity store and lifecycle operations.

The persisted state (tables `doctors`, `slots`, `bookings` from
`backend/init.sql`) is a `DB` record of lists of rows.  Every operation is a
pure function `DB → result × DB` translated from the corresponding data-access
function in the source:

* `createBookingWithConcurrencyControl`, `getBookingById` — `bookingModel.ts`;
* `getAllSlotsWithMeta`, `getSlotWithMetaById`, `lockSlotForUpdate`,
  `softDeleteSlot`, `hardDeleteSlot`, `updateSlotCapacity` — `slotModel.ts`;
* `deleteDoctor` — `doctorModel.ts`;
* `withTransaction` — `config/db.ts` (BEGIN / COMMIT / ROLLBACK: the state is
  the pre-transaction state whenever the body throws);
* `bookingFailureResponse`, `errorHandlerResponse` — `publicController.ts`
  and `middleware/errorHandler.ts`.

Modelling notes.  Row identifiers (UUID strings produced by `randomUUID`) are
natural numbers drawn from a deterministic fresh-id supply `DB.nextId`;
timestamps (`created_at` / `updated_at`, filled in by column defaults) and the
`ORDER BY start_time` clause of the listing query are not modelled, since no
verified property refers to them.  `ON DELETE CASCADE` from `init.sql` is
modelled by deleting the referencing rows together with the referenced row.
The row-level lock (`FOR UPDATE`) serialises all booking attempts on one slot,
so a group of concurrent `createBooking` calls is modelled as a serial
sequence of calls (`runBookings`).
-/

deriving instance DecidableEq for Except

namespace Modex

/-- Booking status column, constrained by `init.sql` to
PENDING / CONFIRMED / FAILED. -/
inductive BookingStatus
  | PENDING
  | CONFIRMED
  | FAILED
deriving DecidableEq, Repr

/-- Row of the `doctors` table (`created_at` not modelled). -/
structure Doctor where
  id : Nat
  name : String
  specialization : String
deriving DecidableEq, Repr

/-- Row of the `slots` table (`created_at` not modelled; `is_active` defaults
to TRUE and the queries treat NULL as active, so a `Bool` is faithful). -/
structure Slot where
  id : Nat
  doctorId : Nat
  startTime : Nat
  endTime : Nat
  capacity : Nat
  isActive : Bool
deriving DecidableEq, Repr

/-- Row of the `bookings` table (`created_at` / `updated_at` not modelled). -/
structure Booking where
  id : Nat
  slotId : Nat
  userName : String
  status : BookingStatus
deriving DecidableEq, Repr

/-- The persisted database state: the three tables of `init.sql`, plus the
state `nextId` of the fresh-id supply that models `randomUUID`. -/
structure DB where
  doctors : List Doctor
  slots : List Slot
  bookings : List Booking
  nextId : Nat
deriving DecidableEq, Repr

/-- Typed failures of the booking allocator: the source throws
`Error("Slot not found.")` and `Error("Slot is full.")`. -/
inductive BookingError
  | slotNotFound
  | slotFull
deriving DecidableEq, Repr

/-- Typed failures of the slot lifecycle operations: the source throws
`Error("Slot not found.")` and, in `updateSlotCapacity`, the guard error
`Error("Slot not found after update.")`. -/
inductive SlotError
  | slotNotFound
  | slotNotFoundAfterUpdate
deriving DecidableEq, Repr

/-- Typed failure of `deleteDoctor`: the source throws
`Error("Doctor not found.")`. -/
inductive DoctorError
  | doctorNotFound
deriving DecidableEq, Repr

/-- The fresh-id supply modelling `generateUuid` (`utils/uuid.ts`): returns
the next id and advances the supply. -/
def generateUuid (db : DB) : Nat × DB :=
  (db.nextId, { db with nextId := db.nextId + 1 })

/-- Freshness of the id supply: every stored booking id was drawn from the
supply, hence is below `nextId`.  This is the correctness assumption on
`randomUUID` (generated ids never collide with stored ones). -/
def BookingIdsFresh (db : DB) : Prop :=
  ∀ b ∈ db.bookings, b.id < db.nextId

/-- Lookup of a slot row by primary key (`SELECT ... FROM slots WHERE id = $1`). -/
def findSlot (db : DB) (slotId : Nat) : Option Slot :=
  db.slots.find? fun s => s.id == slotId

/-- Projection returned by `lockSlotForUpdate` in `slotModel.ts`: the
`SELECT id, capacity ... FOR UPDATE` row. -/
structure LockedSlot where
  id : Nat
  capacity : Nat
deriving DecidableEq, Repr

/-- Embedding of `lockSlotForUpdate` (`slotModel.ts`): selects `id, capacity`
of the slot row with the given id — with no `is_active` filter — or `null`.
The lock itself is the serialisation assumption, not data. -/
def lockSlotForUpdate (db : DB) (slotId : Nat) : Option LockedSlot :=
  (findSlot db slotId).map fun s => { id := s.id, capacity := s.capacity }

/-- Embedding of `countConfirmedBookingsInTransaction` (`bookingModel.ts`):
`SELECT COUNT(*) FROM bookings WHERE slot_id = $1 AND status = 'CONFIRMED'`. -/
def countConfirmedBookings (bookings : List Booking) (slotId : Nat) : Nat :=
  (bookings.filter fun b => b.slotId == slotId && b.status == BookingStatus.CONFIRMED).length

/-- Embedding of `insertBookingInTransaction` (`bookingModel.ts`): generates a
fresh id and appends the new row to the `bookings` table. -/
def insertBookingInTransaction (db : DB) (slotId : Nat) (userName : String)
    (status : BookingStatus) : Booking × DB :=
  let p := generateUuid db
  let booking : Booking := { id := p.1, slotId := slotId, userName := userName, status := status }
  (booking, { p.2 with bookings := p.2.bookings ++ [booking] })

/-- Embedding of `withTransaction` (`config/db.ts`): run the body on the
current state; COMMIT keeps the body's final state, a thrown error ROLLBACKs
to the pre-transaction state and is re-thrown. -/
def withTransaction {ε α : Type} (db : DB) (body : DB → Except ε (α × DB)) :
    Except ε α × DB :=
  match body db with
  | .ok (a, db2) => (.ok a, db2)
  | .error e => (.error e, db)

/-- Embedding of `createBookingWithConcurrencyControl` (`bookingModel.ts`):
inside a transaction, lock the slot row (fail `slotNotFound` when absent),
count CONFIRMED bookings, fail `slotFull` when `confirmedCount >= capacity`,
otherwise insert one CONFIRMED booking row and return it. -/
def createBookingWithConcurrencyControl (db : DB) (slotId : Nat) (userName : String) :
    Except BookingError Booking × DB :=
  withTransaction db fun db0 =>
    match lockSlotForUpdate db0 slotId with
    | none => .error .slotNotFound
    | some lockedSlot =>
      let confirmedCount := countConfirmedBookings db0.bookings slotId
      if confirmedCount ≥ lockedSlot.capacity then
        .error .slotFull
      else
        .ok (insertBookingInTransaction db0 slotId userName .CONFIRMED)

/-- Embedding of `getBookingById` (`bookingModel.ts`): point lookup by id. -/
def getBookingById (db : DB) (bookingId : Nat) : Option Booking :=
  db.bookings.find? fun b => b.id == bookingId

/-- Shape of the entries of the `json_agg` sub-select in `slotModel.ts`
(`created_at` not modelled). -/
structure BookingView where
  id : Nat
  userName : String
  status : BookingStatus
deriving DecidableEq, Repr

/-- The `SlotWithMeta` record assembled by `slotModel.ts` (`created_at` not
modelled): slot columns joined with the doctor's name and specialization, the
derived `confirmedCount` and `availableSeats`, and the CONFIRMED bookings. -/
structure SlotWithMeta where
  id : Nat
  doctorId : Nat
  startTime : Nat
  endTime : Nat
  capacity : Nat
  doctorName : String
  doctorSpecialization : String
  confirmedCount : Nat
  availableSeats : Int
  bookings : List BookingView
deriving DecidableEq, Repr

/-- The `json_agg` sub-select: CONFIRMED bookings of the slot, projected. -/
def confirmedBookingViews (bookings : List Booking) (slotId : Nat) : List BookingView :=
  (bookings.filter fun b => b.slotId == slotId && b.status == BookingStatus.CONFIRMED).map
    fun b => { id := b.id, userName := b.userName, status := b.status }

/-- Assembly of one result row of the slot-with-meta queries in
`slotModel.ts`: `confirmed_count` is the correlated COUNT sub-select and
`availableSeats` is computed as `row.capacity - confirmedCount`. -/
def slotMetaRow (db : DB) (s : Slot) (d : Doctor) : SlotWithMeta :=
  let confirmedCount := countConfirmedBookings db.bookings s.id
  { id := s.id
    doctorId := s.doctorId
    startTime := s.startTime
    endTime := s.endTime
    capacity := s.capacity
    doctorName := d.name
    doctorSpecialization := d.specialization
    confirmedCount := confirmedCount
    availableSeats := (s.capacity : Int) - (confirmedCount : Int)
    bookings := confirmedBookingViews db.bookings s.id }

/-- Embedding of `getAllSlotsWithMeta` (`slotModel.ts`), the spec's
`listActiveSlotsWithAvailability`: every slot with `is_active IS NOT FALSE`,
INNER JOINed with its doctor (rows whose doctor is absent are dropped by the
join).  The `ORDER BY start_time` clause is not modelled. -/
def getAllSlotsWithMeta (db : DB) : List SlotWithMeta :=
  db.slots.filterMap fun s =>
    if s.isActive then
      (db.doctors.find? fun d => d.id == s.doctorId).map fun d => slotMetaRow db s d
    else
      none

/-- Embedding of `getSlotWithMetaById` (`slotModel.ts`), the spec's
`getSlotWithAvailabilityById`: the same aggregation for the single row with
the given id and `is_active IS NOT FALSE`, `null` when no such row. -/
def getSlotWithMetaById (db : DB) (slotId : Nat) : Option SlotWithMeta :=
  match db.slots.find? fun s => s.id == slotId && s.isActive with
  | none => none
  | some s =>
    match db.doctors.find? fun d => d.id == s.doctorId with
    | none => none
    | some d => some (slotMetaRow db s d)

/-- Embedding of `softDeleteSlot` (`slotModel.ts`):
`UPDATE slots SET is_active = FALSE WHERE id = $1 RETURNING id`, throwing
`Slot not found.` when no row was updated. -/
def softDeleteSlot (db : DB) (slotId : Nat) : Except SlotError Unit × DB :=
  if db.slots.any fun s => s.id == slotId then
    (.ok (),
      { db with
        slots := db.slots.map fun s =>
          if s.id == slotId then { s with isActive := false } else s })
  else
    (.error .slotNotFound, db)

/-- Embedding of `hardDeleteSlot` (`slotModel.ts`):
`DELETE FROM slots WHERE id = $1 RETURNING id`; `bookings.slot_id` carries
`ON DELETE CASCADE` (`init.sql`), so the bookings of the slot are deleted with
it.  Throws `Slot not found.` when no row was deleted. -/
def hardDeleteSlot (db : DB) (slotId : Nat) : Except SlotError Unit × DB :=
  if db.slots.any fun s => s.id == slotId then
    (.ok (),
      { db with
        slots := db.slots.filter fun s => !(s.id == slotId)
        bookings := db.bookings.filter fun b => !(b.slotId == slotId) })
  else
    (.error .slotNotFound, db)

/-- Effect of the statement `UPDATE slots SET capacity = $1 WHERE id = $2`
run by `updateSlotCapacity`: every slot row matching the id gets the new
capacity (no `is_active` filter). -/
def applyCapacityUpdate (db : DB) (slotId : Nat) (capacity : Nat) : DB :=
  { db with
    slots := db.slots.map fun s =>
      if s.id == slotId then { s with capacity := capacity } else s }

/-- Embedding of `updateSlotCapacity` (`slotModel.ts`).  Two separate
auto-commit statements, not wrapped in a transaction: first
`UPDATE slots SET capacity = $1 WHERE id = $2` (throwing `Slot not found.`
when no row matched), then a re-read through `getSlotWithMetaById`; when that
re-read returns `null` — which happens for a soft-deleted slot, since the
re-read filters `is_active IS NOT FALSE` while the UPDATE does not — the
function throws `Slot not found after update.` with the UPDATE already
persisted. -/
def updateSlotCapacity (db : DB) (slotId : Nat) (capacity : Nat) :
    Except SlotError SlotWithMeta × DB :=
  if db.slots.any fun s => s.id == slotId then
    match getSlotWithMetaById (applyCapacityUpdate db slotId capacity) slotId with
    | some slotWithMeta => (.ok slotWithMeta, applyCapacityUpdate db slotId capacity)
    | none => (.error .slotNotFoundAfterUpdate, applyCapacityUpdate db slotId capacity)
  else
    (.error .slotNotFound, db)

/-- Embedding of `deleteDoctor` (`doctorModel.ts`): check the doctor row
exists (throwing `Doctor not found.` otherwise), then
`DELETE FROM doctors WHERE id = $1`; `slots.doctor_id` and
`bookings.slot_id` carry `ON DELETE CASCADE` (`init.sql`), so the doctor's
slots and those slots' bookings are deleted with it. -/
def deleteDoctor (db : DB) (doctorId : Nat) : Except DoctorError Unit × DB :=
  match db.doctors.find? fun d => d.id == doctorId with
  | none => (.error .doctorNotFound, db)
  | some _ =>
    let removedSlotIds := (db.slots.filter fun s => s.doctorId == doctorId).map Slot.id
    (.ok (),
      { db with
        doctors := db.doctors.filter fun d => !(d.id == doctorId)
        slots := db.slots.filter fun s => !(s.doctorId == doctorId)
        bookings := db.bookings.filter fun b => !(removedSlotIds.contains b.slotId) })

/-- Embedding of the catch branch of `handleCreateBooking`
(`publicController.ts`): the thrown message is mapped to a status code and a
response body `{ error: message }` — 404 for `Slot not found.`, 409 for
`Slot is full.`, and otherwise 500 with the raw message as the body. -/
def bookingFailureResponse (message : String) : Nat × String :=
  if message == "Slot not found." then (404, message)
  else if message == "Slot is full." then (409, message)
  else (500, message)

/-- Embedding of the response built by `errorHandler`
(`middleware/errorHandler.ts`): status 500 with body
`{ error: "Internal server error.", details: message }`, where `message` is
the thrown error's message. -/
def errorHandlerResponse (message : String) : Nat × String × String :=
  (500, "Internal server error.", message)

/-- N serial `createBooking` calls for one slot and user: the serial order the
slot row lock enforces on concurrent callers. -/
def runBookings : Nat → DB → Nat → String → List (Except BookingError Booking) × DB
  | 0, db, _, _ => ([], db)
  | n + 1, db, slotId, userName =>
    let p := createBookingWithConcurrencyControl db slotId userName
    let q := runBookings n p.2 slotId userName
    (p.1 :: q.1, q.2)

/-- A call outcome that is a success carrying a CONFIRMED booking. -/
def isConfirmedSuccess : Except BookingError Booking → Bool
  | .ok b => b.status == BookingStatus.CONFIRMED
  | .error _ => false

/-- A call outcome that is a `SlotFull` failure. -/
def isSlotFullFailure : Except BookingError Booking → Bool
  | .error .slotFull => true
  | _ => false

/-- Number of successful CONFIRMED outcomes in a result list. -/
def confirmedSuccessCount (results : List (Except BookingError Booking)) : Nat :=
  (results.filter isConfirmedSuccess).length

/-- Number of `SlotFull` failures in a result list. -/
def slotFullFailureCount (results : List (Except BookingError Booking)) : Nat :=
  (results.filter isSlotFullFailure).length

/-- The booking row a successful `createBookingWithConcurrencyControl` call on
state `db` inserts and returns: fresh id from the supply, status CONFIRMED. -/
def freshBooking (db : DB) (slotId : Nat) (userName : String) : Booking :=
  { id := db.nextId, slotId := slotId, userName := userName, status := .CONFIRMED }

/-- The state a successful `createBookingWithConcurrencyControl` call commits:
the fresh booking row appended and the id supply advanced; doctors and slots
untouched. -/
def afterBookingInsert (db : DB) (slotId : Nat) (userName : String) : DB :=
  { db with
    bookings := db.bookings ++ [freshBooking db slotId userName]
    nextId := db.nextId + 1 }

/-! Concrete database states used by witnesses and counterexamples. -/

/-- Example doctor row. -/
def exDoctor : Doctor := { id := 0, name := "d", specialization := "s" }

/-- Example active slot of capacity 2 for doctor 0. -/
def exSlot : Slot :=
  { id := 1, doctorId := 0, startTime := 0, endTime := 1, capacity := 2, isActive := true }

/-- Example state: one doctor, one empty active slot of capacity 2. -/
def exDb : DB := { doctors := [exDoctor], slots := [exSlot], bookings := [], nextId := 10 }

/-- Example soft-deleted slot of capacity 5 for doctor 0. -/
def exSlotInactive : Slot :=
  { id := 1, doctorId := 0, startTime := 0, endTime := 1, capacity := 5, isActive := false }

/-- Example state: one doctor, one soft-deleted slot of capacity 5, no
bookings. -/
def exDbInactive : DB :=
  { doctors := [exDoctor], slots := [exSlotInactive], bookings := [], nextId := 10 }

/-- Example active slot of capacity 1 for doctor 0. -/
def exSlotBooked : Slot :=
  { id := 1, doctorId := 0, startTime := 0, endTime := 1, capacity := 1, isActive := true }

/-- Example CONFIRMED booking on slot 1. -/
def exBooking : Booking := { id := 100, slotId := 1, userName := "u", status := .CONFIRMED }

/-- Example state: one doctor, one active slot of capacity 1 holding one
CONFIRMED booking. -/
def exDbBooked : DB :=
  { doctors := [exDoctor], slots := [exSlotBooked], bookings := [exBooking], nextId := 101 }

/-- Example active slot whose capacity was lowered to 0 below its confirmed
count. -/
def exSlotOverbooked : Slot :=
  { id := 1, doctorId := 0, startTime := 0, endTime := 1, capacity := 0, isActive := true }

/-- Example state: an active slot of capacity 0 holding one CONFIRMED
booking, so its available seats are negative. -/
def exDbOverbooked : DB :=
  { doctors := [exDoctor], slots := [exSlotOverbooked], bookings := [exBooking], nextId := 101 }

/-- The availability row `getSlotWithMetaById exDbOverbooked 1` returns:
negative `availableSeats`. -/
def exMetaOverbooked : SlotWithMeta :=
  { id := 1, doctorId := 0, startTime := 0, endTime := 1, capacity := 0,
    doctorName := "d", doctorSpecialization := "s", confirmedCount := 1,
    availableSeats := -1,
    bookings := [{ id := 100, userName := "u", status := .CONFIRMED }] }

/-! Helper lemmas about the allocator. -/

theorem any_of_find?_eq_some {α : Type} (l : List α) (p : α → Bool) (a : α)
    (h : l.find? p = some a) : l.any p = true := by
  rw [List.any_eq_true]
  exact ⟨a, List.mem_of_find?_eq_some h, List.find?_some h⟩

theorem withTransaction_error_state {ε α : Type} (db : DB) (body : DB → Except ε (α × DB))
    (e : ε) (h : (withTransaction db body).1 = .error e) :
    (withTransaction db body).2 = db := by
  unfold withTransaction at h ⊢
  cases hb : body db with
  | ok p => rw [hb] at h; simp at h
  | error e2 => rfl

theorem createBooking_slotNotFound (db : DB) (slotId : Nat) (userName : String)
    (h : findSlot db slotId = none) :
    createBookingWithConcurrencyControl db slotId userName = (.error .slotNotFound, db) := by
  simp [createBookingWithConcurrencyControl, withTransaction, lockSlotForUpdate, h]

theorem createBooking_slotFull (db : DB) (slotId : Nat) (userName : String) (s : Slot)
    (hs : findSlot db slotId = some s)
    (hc : s.capacity ≤ countConfirmedBookings db.bookings slotId) :
    createBookingWithConcurrencyControl db slotId userName = (.error .slotFull, db) := by
  simp [createBookingWithConcurrencyControl, withTransaction, lockSlotForUpdate, hs, hc]

theorem createBooking_success (db : DB) (slotId : Nat) (userName : String) (s : Slot)
    (hs : findSlot db slotId = some s)
    (hc : countConfirmedBookings db.bookings slotId < s.capacity) :
    createBookingWithConcurrencyControl db slotId userName =
      (.ok (freshBooking db slotId userName), afterBookingInsert db slotId userName) := by
  have hnot : ¬ s.capacity ≤ countConfirmedBookings db.bookings slotId := Nat.not_le.mpr hc
  simp [createBookingWithConcurrencyControl, withTransaction, lockSlotForUpdate, hs, hnot,
    insertBookingInTransaction, generateUuid, freshBooking, afterBookingInsert]

theorem findSlot_afterBookingInsert (db : DB) (slotId slotId2 : Nat) (userName : String) :
    findSlot (afterBookingInsert db slotId userName) slotId2 = findSlot db slotId2 := rfl

theorem countConfirmed_afterBookingInsert (db : DB) (slotId : Nat) (userName : String) :
    countConfirmedBookings (afterBookingInsert db slotId userName).bookings slotId =
      countConfirmedBookings db.bookings slotId + 1 := by
  simp [afterBookingInsert, countConfirmedBookings, List.filter_append, freshBooking]

theorem confirmedSuccessCount_nil : confirmedSuccessCount [] = 0 := rfl

theorem slotFullFailureCount_nil : slotFullFailureCount [] = 0 := rfl

theorem confirmedSuccessCount_cons (r : Except BookingError Booking)
    (l : List (Except BookingError Booking)) :
    confirmedSuccessCount (r :: l) =
      (if isConfirmedSuccess r then 1 else 0) + confirmedSuccessCount l := by
  simp [confirmedSuccessCount, List.filter_cons]
  split <;> simp [Nat.add_comm]

theorem slotFullFailureCount_cons (r : Except BookingError Booking)
    (l : List (Except BookingError Booking)) :
    slotFullFailureCount (r :: l) =
      (if isSlotFullFailure r then 1 else 0) + slotFullFailureCount l := by
  simp [slotFullFailureCount, List.filter_cons]
  split <;> simp [Nat.add_comm]

theorem runBookings_spec (slotId : Nat) (userName : String) (s : Slot) :
    ∀ (n : Nat) (db : DB), findSlot db slotId = some s →
      countConfirmedBookings db.bookings slotId ≤ s.capacity →
      confirmedSuccessCount (runBookings n db slotId userName).1 =
          min n (s.capacity - countConfirmedBookings db.bookings slotId) ∧
      slotFullFailureCount (runBookings n db slotId userName).1 =
          n - min n (s.capacity - countConfirmedBookings db.bookings slotId) ∧
      countConfirmedBookings (runBookings n db slotId userName).2.bookings slotId =
          min (countConfirmedBookings db.bookings slotId + n) s.capacity := by
  intro n
  induction n with
  | zero =>
    intro db hs hle
    simp [runBookings, confirmedSuccessCount, slotFullFailureCount]
    omega
  | succ n ih =>
    intro db hs hle
    by_cases hfull : s.capacity ≤ countConfirmedBookings db.bookings slotId
    · have hstep := createBooking_slotFull db slotId userName s hs hfull
      obtain ⟨h1, h2, h3⟩ := ih db hs hle
      have hrun1 : (runBookings (n + 1) db slotId userName).1 =
          Except.error BookingError.slotFull :: (runBookings n db slotId userName).1 := by
        simp [runBookings, hstep]
      have hrun2 : (runBookings (n + 1) db slotId userName).2 =
          (runBookings n db slotId userName).2 := by
        simp [runBookings, hstep]
      refine ⟨?_, ?_, ?_⟩
      · rw [hrun1, confirmedSuccessCount_cons, h1]
        simp [isConfirmedSuccess]
        omega
      · rw [hrun1, slotFullFailureCount_cons, h2]
        simp [isSlotFullFailure]
        omega
      · rw [hrun2, h3]
        omega
    · have hlt : countConfirmedBookings db.bookings slotId < s.capacity := Nat.lt_of_not_le hfull
      have hstep := createBooking_success db slotId userName s hs hlt
      have hs2 : findSlot (afterBookingInsert db slotId userName) slotId = some s := hs
      have hcount := countConfirmed_afterBookingInsert db slotId userName
      have hle2 : countConfirmedBookings (afterBookingInsert db slotId userName).bookings slotId
          ≤ s.capacity := by omega
      obtain ⟨h1, h2, h3⟩ := ih (afterBookingInsert db slotId userName) hs2 hle2
      have hrun1 : (runBookings (n + 1) db slotId userName).1 =
          Except.ok (freshBooking db slotId userName) ::
            (runBookings n (afterBookingInsert db slotId userName) slotId userName).1 := by
        simp [runBookings, hstep]
      have hrun2 : (runBookings (n + 1) db slotId userName).2 =
          (runBookings n (afterBookingInsert db slotId userName) slotId userName).2 := by
        simp [runBookings, hstep]
      refine ⟨?_, ?_, ?_⟩
      · rw [hrun1, confirmedSuccessCount_cons, h1]
        simp [isConfirmedSuccess, freshBooking]
        omega
      · rw [hrun1, slotFullFailureCount_cons, h2]
        simp [isSlotFullFailure]
        omega
      · rw [hrun2, h3]
        omega

/-- C1 (no-overbooking): for a slot of capacity C with zero confirmed
bookings, a serial sequence of N `createBooking` calls for that slot (the
order the slot row lock enforces, with no intervening capacity changes or
deletes) yields exactly `min N C` successes carrying a CONFIRMED booking and
`N - min N C` failures with `SlotFull`, and after every prefix of the
sequence the persisted CONFIRMED count of the slot is at most C. -/
theorem noOverbooking (db : DB) (slotId : Nat) (userName : String) (s : Slot) (n : Nat)
    (hs : findSlot db slotId = some s)
    (h0 : countConfirmedBookings db.bookings slotId = 0) :
    confirmedSuccessCount (runBookings n db slotId userName).1 = min n s.capacity ∧
    slotFullFailureCount (runBookings n db slotId userName).1 = n - min n s.capacity ∧
    ∀ k, k ≤ n →
      countConfirmedBookings (runBookings k db slotId userName).2.bookings slotId ≤
        s.capacity := by
  have hle : countConfirmedBookings db.bookings slotId ≤ s.capacity := by omega
  obtain ⟨h1, h2, -⟩ := runBookings_spec slotId userName s n db hs hle
  rw [h0] at h1 h2
  refine ⟨by simpa using h1, by simpa using h2, ?_⟩
  intro k _
  obtain ⟨-, -, h3⟩ := runBookings_spec slotId userName s k db hs hle
  omega

/-- Witness for `noOverbooking`: on a fresh slot of capacity 2, three serial
`createBooking` calls give two CONFIRMED successes and one `SlotFull`
failure, and the persisted CONFIRMED count after the two-call prefix is at
most 2. -/
theorem noOverbooking_witness :
    confirmedSuccessCount (runBookings 3 exDb 1 "u").1 = 2 ∧
    slotFullFailureCount (runBookings 3 exDb 1 "u").1 = 1 ∧
    countConfirmedBookings (runBookings 2 exDb 1 "u").2.bookings 1 ≤ 2 := by
  obtain ⟨h1, h2, h3⟩ := noOverbooking exDb 1 "u" exSlot 3 (by decide) (by decide)
  exact ⟨by simpa using h1, by simpa using h2, by simpa using h3 2 (by decide)⟩

/-- C2 (per-call contract of `createBooking`): when no slot row with the
given id exists the call fails with `SlotNotFound`; otherwise, when the
slot's CONFIRMED count is at least its capacity it fails with `SlotFull`;
otherwise it returns a CONFIRMED booking for the slot with a fresh unique id
and appends exactly that one row to the bookings table.  The `isActive` flag
is never consulted: the slot `s` below is arbitrary, active or soft-deleted. -/
theorem createBooking_contract (db : DB) (slotId : Nat) (userName : String) :
    (findSlot db slotId = none →
      createBookingWithConcurrencyControl db slotId userName = (.error .slotNotFound, db)) ∧
    (∀ s : Slot, findSlot db slotId = some s →
      s.capacity ≤ countConfirmedBookings db.bookings slotId →
      createBookingWithConcurrencyControl db slotId userName = (.error .slotFull, db)) ∧
    (∀ s : Slot, findSlot db slotId = some s →
      countConfirmedBookings db.bookings slotId < s.capacity →
      createBookingWithConcurrencyControl db slotId userName =
        (.ok (freshBooking db slotId userName), afterBookingInsert db slotId userName) ∧
      (freshBooking db slotId userName).slotId = slotId ∧
      (freshBooking db slotId userName).status = .CONFIRMED ∧
      (freshBooking db slotId userName).userName = userName ∧
      (afterBookingInsert db slotId userName).bookings =
        db.bookings ++ [freshBooking db slotId userName] ∧
      (BookingIdsFresh db →
        (freshBooking db slotId userName).id ∉ db.bookings.map Booking.id)) := by
  refine ⟨createBooking_slotNotFound db slotId userName, ?_, ?_⟩
  · intro s hs hc
    exact createBooking_slotFull db slotId userName s hs hc
  · intro s hs hc
    refine ⟨createBooking_success db slotId userName s hs hc, rfl, rfl, rfl, rfl, ?_⟩
    intro hfresh hmem
    obtain ⟨b, hb, hid⟩ := List.mem_map.mp hmem
    have := hfresh b hb
    simp [freshBooking] at hid
    omega

/-- Witness for `createBooking_contract`: a soft-deleted slot of capacity 5
with no bookings is booked successfully (success branch), and a lookup of a
missing slot id fails with `SlotNotFound` (not-found branch). -/
theorem createBooking_contract_witness :
    createBookingWithConcurrencyControl exDbInactive 1 "u" =
      (.ok (freshBooking exDbInactive 1 "u"), afterBookingInsert exDbInactive 1 "u") ∧
    (freshBooking exDbInactive 1 "u").status = .CONFIRMED ∧
    (freshBooking exDbInactive 1 "u").id ∉ exDbInactive.bookings.map Booking.id ∧
    createBookingWithConcurrencyControl exDbInactive 99 "u" =
      (.error .slotNotFound, exDbInactive) := by
  obtain ⟨hnone, -, hsucc⟩ := createBooking_contract exDbInactive 1 "u"
  obtain ⟨ha, -, hcst, -, -, hid⟩ := hsucc exSlotInactive (by decide) (by decide)
  refine ⟨ha, hcst, hid ?_, (createBooking_contract exDbInactive 99 "u").1 (by decide)⟩
  intro b hb
  simp [exDbInactive] at hb

/-- C3 (amended): every failing operation leaves the persisted state exactly
as it was — for `createBooking` (transaction rollback), `softDeleteSlot`,
`hardDeleteSlot` and `deleteDoctor` (single-statement failures happen before
any write), and for `updateSlotCapacity` when the failure is `SlotNotFound`.
The exception is a failing `updateSlotCapacity` on an existing soft-deleted
slot, whose capacity write persists (see the counterexample). -/
theorem failureAtomicity (db : DB) (slotId doctorId capacity : Nat) (userName : String) :
    (∀ e, (createBookingWithConcurrencyControl db slotId userName).1 = .error e →
      (createBookingWithConcurrencyControl db slotId userName).2 = db) ∧
    (∀ e, (softDeleteSlot db slotId).1 = .error e → (softDeleteSlot db slotId).2 = db) ∧
    (∀ e, (hardDeleteSlot db slotId).1 = .error e → (hardDeleteSlot db slotId).2 = db) ∧
    (∀ e, (deleteDoctor db doctorId).1 = .error e → (deleteDoctor db doctorId).2 = db) ∧
    ((updateSlotCapacity db slotId capacity).1 = .error .slotNotFound →
      (updateSlotCapacity db slotId capacity).2 = db) := by
  refine ⟨?_, ?_, ?_, ?_, ?_⟩
  · intro e h
    exact withTransaction_error_state db _ e h
  · intro e h
    by_cases hc : (db.slots.any fun s => s.id == slotId) = true
    · simp [softDeleteSlot, hc] at h
    · simp [softDeleteSlot, hc]
  · intro e h
    by_cases hc : (db.slots.any fun s => s.id == slotId) = true
    · simp [hardDeleteSlot, hc] at h
    · simp [hardDeleteSlot, hc]
  · intro e h
    cases hf : db.doctors.find? fun d => d.id == doctorId with
    | none => simp [deleteDoctor, hf]
    | some d => simp [deleteDoctor, hf] at h
  · intro h
    by_cases hc : (db.slots.any fun s => s.id == slotId) = true
    · exfalso
      cases hm : getSlotWithMetaById (applyCapacityUpdate db slotId capacity) slotId with
      | none => simp [updateSlotCapacity, hc, hm] at h
      | some m => simp [updateSlotCapacity, hc, hm] at h
    · simp [updateSlotCapacity, hc]

/-- Witness for `failureAtomicity`: a `SlotFull` booking failure and a
`SlotNotFound` hard-delete failure leave the example state untouched. -/
theorem failureAtomicity_witness :
    (createBookingWithConcurrencyControl exDbBooked 1 "v").2 = exDbBooked ∧
    (hardDeleteSlot exDbBooked 99).2 = exDbBooked := by
  obtain ⟨h1, -, -, -, -⟩ := failureAtomicity exDbBooked 1 99 0 "v"
  obtain ⟨-, -, h3, -, -⟩ := failureAtomicity exDbBooked 99 0 0 "v"
  exact ⟨h1 .slotFull (by decide), h3 .slotNotFound (by decide)⟩

/-- C3 counterexample: `updateSlotCapacity` on the existing soft-deleted
slot 1 of `exDbInactive` fails (`Slot not found after update.`), yet the
persisted state after the call differs from the state before it — the
capacity write of the first statement survives the failure, because the two
statements do not share a transaction. -/
theorem failureAtomicity_counterexample :
    (updateSlotCapacity exDbInactive 1 3).1 = .error .slotNotFoundAfterUpdate ∧
    (updateSlotCapacity exDbInactive 1 3).2 ≠ exDbInactive := by decide

theorem find?_map_capacityUpdate (l : List Slot) (slotId cap : Nat) (s : Slot)
    (h : l.find? (fun x => x.id == slotId) = some s) (ha : s.isActive = true) :
    (l.map fun x => if x.id == slotId then { x with capacity := cap } else x).find?
      (fun x => x.id == slotId && x.isActive) = some { s with capacity := cap } := by
  induction l with
  | nil => simp at h
  | cons x xs ih =>
    by_cases hx : (x.id == slotId) = true
    · have hxs : x = s := by
        rw [List.find?_cons] at h
        simpa [hx] using h
      subst hxs
      have hpred : ((({ x with capacity := cap } : Slot).id == slotId) &&
          ({ x with capacity := cap } : Slot).isActive) = true := by
        simp [hx, ha]
      simp only [List.map_cons, if_pos hx, List.find?_cons, hpred]
    · have h2 : xs.find? (fun y => y.id == slotId) = some s := by
        rw [List.find?_cons] at h
        simpa [hx] using h
      have hpred : ((x.id == slotId) && x.isActive) = false := by
        simp [hx]
      simp only [List.map_cons, if_neg hx, List.find?_cons, hpred, ih h2]

theorem nodup_slot_ids_unique (l : List Slot) (hnd : (l.map Slot.id).Nodup)
    (x y : Slot) (hx : x ∈ l) (hy : y ∈ l) (hxy : x.id = y.id) : x = y :=
  List.inj_on_of_nodup_map hnd hx hy hxy

/-- C4 (amended): `updateSlotCapacity(slotId, newCapacity)` fails with
`SlotNotFound` when no slot row with the id exists; on an existing **active**
slot it succeeds unconditionally, overwriting the capacity with any
non-negative value and performing no check against the confirmed count; but
on an existing **soft-deleted** slot (ids unique, as the primary key
guarantees) it does not succeed: it fails with `Slot not found after
update.`, with the capacity write already persisted. -/
theorem updateSlotCapacity_contract (db : DB) (slotId capacity : Nat) :
    (findSlot db slotId = none →
      updateSlotCapacity db slotId capacity = (.error .slotNotFound, db)) ∧
    (∀ s d, findSlot db slotId = some s → s.isActive = true →
      (db.doctors.find? fun x => x.id == s.doctorId) = some d →
      updateSlotCapacity db slotId capacity =
        (.ok (slotMetaRow (applyCapacityUpdate db slotId capacity)
            { s with capacity := capacity } d),
          applyCapacityUpdate db slotId capacity) ∧
      (slotMetaRow (applyCapacityUpdate db slotId capacity)
          { s with capacity := capacity } d).capacity = capacity ∧
      (slotMetaRow (applyCapacityUpdate db slotId capacity)
          { s with capacity := capacity } d).confirmedCount =
        countConfirmedBookings db.bookings s.id) ∧
    (∀ s, findSlot db slotId = some s → s.isActive = false →
      (db.slots.map Slot.id).Nodup →
      (updateSlotCapacity db slotId capacity).1 = .error .slotNotFoundAfterUpdate ∧
      (updateSlotCapacity db slotId capacity).2 = applyCapacityUpdate db slotId capacity) := by
  refine ⟨?_, ?_, ?_⟩
  · intro h
    have hc : (db.slots.any fun s => s.id == slotId) = false := by
      rw [List.any_eq_false]
      intro x hx
      rw [findSlot, List.find?_eq_none] at h
      exact h x hx
    simp [updateSlotCapacity, hc]
  · intro s d hs hact hd
    have hAny : (db.slots.any fun x => x.id == slotId) = true :=
      any_of_find?_eq_some db.slots _ s hs
    have hfind := find?_map_capacityUpdate db.slots slotId capacity s hs hact
    have hmeta : getSlotWithMetaById (applyCapacityUpdate db slotId capacity) slotId =
        some (slotMetaRow (applyCapacityUpdate db slotId capacity)
          { s with capacity := capacity } d) := by
      simp only [getSlotWithMetaById, applyCapacityUpdate, hfind, hd]
    refine ⟨?_, rfl, rfl⟩
    simp [updateSlotCapacity, hAny, hmeta]
  · intro s hs hact hnd
    have hAny : (db.slots.any fun x => x.id == slotId) = true :=
      any_of_find?_eq_some db.slots _ s hs
    have hsid : s.id = slotId := by
      have := List.find?_some hs
      simpa using this
    have hsmem : s ∈ db.slots := List.mem_of_find?_eq_some hs
    have hfind : ((applyCapacityUpdate db slotId capacity).slots.find?
        fun x => x.id == slotId && x.isActive) = none := by
      rw [List.find?_eq_none]
      intro x hx
      simp only [applyCapacityUpdate, List.mem_map] at hx
      obtain ⟨y, hy, rfl⟩ := hx
      by_cases hyid : (y.id == slotId) = true
      · have : y = s := nodup_slot_ids_unique db.slots hnd y s hy hsmem (by simpa [hsid] using hyid)
        subst this
        simp [hyid, hact]
      · simp [hyid]
    have hmeta : getSlotWithMetaById (applyCapacityUpdate db slotId capacity) slotId = none := by
      simp only [getSlotWithMetaById, hfind]
    constructor
    · simp [updateSlotCapacity, hAny, hmeta]
    · simp [updateSlotCapacity, hAny, hmeta]

/-- Witness for `updateSlotCapacity_contract`: on the active slot 1 of
capacity 2, setting capacity 7 succeeds with the overwritten value, and a
missing slot id fails with `SlotNotFound`. -/
theorem updateSlotCapacity_contract_witness :
    (updateSlotCapacity exDb 1 7).1 =
      .ok (slotMetaRow (applyCapacityUpdate exDb 1 7) { exSlot with capacity := 7 } exDoctor) ∧
    (slotMetaRow (applyCapacityUpdate exDb 1 7) { exSlot with capacity := 7 } exDoctor).capacity
      = 7 ∧
    updateSlotCapacity exDb 99 5 = (.error .slotNotFound, exDb) := by
  obtain ⟨-, hsucc, -⟩ := updateSlotCapacity_contract exDb 1 7
  obtain ⟨ha, hb, -⟩ := hsucc exSlot exDoctor (by decide) (by decide) (by decide)
  exact ⟨by rw [ha], hb, (updateSlotCapacity_contract exDb 99 5).1 (by decide)⟩

/-- C4 counterexample: slot 1 exists in `exDbInactive` (soft-deleted, so its
row is present) and 3 is a non-negative capacity, yet `updateSlotCapacity`
does not succeed — it fails with `Slot not found after update.`. -/
theorem updateSlotCapacity_contract_counterexample :
    findSlot exDbInactive 1 = some exSlotInactive ∧
    (updateSlotCapacity exDbInactive 1 3).1 = .error .slotNotFoundAfterUpdate := by decide

/-- C5: `hardDeleteSlot(slotId)` fails with `SlotNotFound` iff no slot row
with the id exists; otherwise it succeeds, deleting the slot row and every
booking row referencing it — CONFIRMED bookings included, no check blocks the
delete — while every other slot, booking and doctor row survives. -/
theorem hardDeleteSlot_contract (db : DB) (slotId : Nat) :
    ((hardDeleteSlot db slotId).1 = .error .slotNotFound ↔ findSlot db slotId = none) ∧
    (findSlot db slotId ≠ none →
      (hardDeleteSlot db slotId).1 = .ok () ∧
      (∀ s ∈ (hardDeleteSlot db slotId).2.slots, s.id ≠ slotId) ∧
      (∀ b ∈ (hardDeleteSlot db slotId).2.bookings, b.slotId ≠ slotId) ∧
      (∀ s ∈ db.slots, s.id ≠ slotId → s ∈ (hardDeleteSlot db slotId).2.slots) ∧
      (∀ b ∈ db.bookings, b.slotId ≠ slotId → b ∈ (hardDeleteSlot db slotId).2.bookings) ∧
      (hardDeleteSlot db slotId).2.doctors = db.doctors) := by
  by_cases hc : (db.slots.any fun s => s.id == slotId) = true
  · have hne : findSlot db slotId ≠ none := by
      rw [List.any_eq_true] at hc
      obtain ⟨x, hx, hpx⟩ := hc
      rw [Ne, findSlot, List.find?_eq_none]
      intro hall
      exact hall x hx hpx
    refine ⟨?_, fun _ => ?_⟩
    · simp [hardDeleteSlot, hc, hne]
    · refine ⟨by simp [hardDeleteSlot, hc], ?_, ?_, ?_, ?_, by simp [hardDeleteSlot, hc]⟩
      · intro s hsm
        simp [hardDeleteSlot, hc, List.mem_filter] at hsm
        exact hsm.2
      · intro b hbm
        simp [hardDeleteSlot, hc, List.mem_filter] at hbm
        exact hbm.2
      · intro s hsm hid
        simp [hardDeleteSlot, hc, List.mem_filter]
        exact ⟨hsm, hid⟩
      · intro b hbm hid
        simp [hardDeleteSlot, hc, List.mem_filter]
        exact ⟨hbm, hid⟩
  · have hnone : findSlot db slotId = none := by
      rw [findSlot, List.find?_eq_none]
      rw [Bool.not_eq_true, List.any_eq_false] at hc
      exact hc
    refine ⟨?_, fun hne => absurd hnone hne⟩
    simp [hardDeleteSlot, hc, hnone]

/-- Witness for `hardDeleteSlot_contract`: deleting slot 1, which holds a
CONFIRMED booking, succeeds and removes both the slot row and the booking
row. -/
theorem hardDeleteSlot_contract_witness :
    (hardDeleteSlot exDbBooked 1).1 = .ok () ∧
    (hardDeleteSlot exDbBooked 1).2.slots = [] ∧
    (hardDeleteSlot exDbBooked 1).2.bookings = [] := by
  obtain ⟨-, h⟩ := hardDeleteSlot_contract exDbBooked 1
  exact ⟨(h (by decide)).1, by decide, by decide⟩

/-- C6: `deleteDoctor(doctorId)` fails with `DoctorNotFound` iff no doctor
row with the id exists; otherwise (slot ids unique, as the primary key
guarantees) it succeeds, removing the doctor row, every slot row of that
doctor and every booking row on those slots, and `getSlotWithMetaById`
afterwards returns `none` for each removed slot id. -/
theorem deleteDoctor_contract (db : DB) (doctorId : Nat) :
    ((deleteDoctor db doctorId).1 = .error .doctorNotFound ↔
      (db.doctors.find? fun d => d.id == doctorId) = none) ∧
    ((db.doctors.find? fun d => d.id == doctorId) ≠ none →
      (db.slots.map Slot.id).Nodup →
      (deleteDoctor db doctorId).1 = .ok () ∧
      (∀ d ∈ (deleteDoctor db doctorId).2.doctors, d.id ≠ doctorId) ∧
      (∀ s ∈ (deleteDoctor db doctorId).2.slots, s.doctorId ≠ doctorId) ∧
      (∀ b ∈ (deleteDoctor db doctorId).2.bookings, ∀ s ∈ db.slots,
        s.doctorId = doctorId → b.slotId ≠ s.id) ∧
      (∀ s ∈ db.slots, s.doctorId = doctorId →
        getSlotWithMetaById (deleteDoctor db doctorId).2 s.id = none)) := by
  cases hf : db.doctors.find? fun d => d.id == doctorId with
  | none =>
    refine ⟨?_, fun hne _ => absurd rfl hne⟩
    simp [deleteDoctor, hf]
  | some d0 =>
    have hdel : deleteDoctor db doctorId =
        (.ok (),
          { db with
            doctors := db.doctors.filter fun d => !(d.id == doctorId)
            slots := db.slots.filter fun s => !(s.doctorId == doctorId)
            bookings := db.bookings.filter fun b =>
              !(((db.slots.filter fun s => s.doctorId == doctorId).map Slot.id).contains
                b.slotId) }) := by
      rw [deleteDoctor, hf]
    refine ⟨by rw [hdel]; simp, fun _ hnd => ?_⟩
    refine ⟨by rw [hdel], ?_, ?_, ?_, ?_⟩
    · intro d hdm
      rw [hdel] at hdm
      have := (List.mem_filter.mp hdm).2
      simpa using this
    · intro s hsm
      rw [hdel] at hsm
      have := (List.mem_filter.mp hsm).2
      simpa using this
    · intro b hbm s hsm hdid hbs
      rw [hdel] at hbm
      have hnc := (List.mem_filter.mp hbm).2
      rw [Bool.not_eq_true'] at hnc
      have hmem : b.slotId ∈ (db.slots.filter fun x => x.doctorId == doctorId).map Slot.id :=
        List.mem_map.mpr ⟨s, List.mem_filter.mpr ⟨hsm, by simp [hdid]⟩, hbs.symm⟩
      have hct : ((db.slots.filter fun x => x.doctorId == doctorId).map Slot.id).contains
          b.slotId = true := by
        simpa using hmem
      rw [hct] at hnc
      cases hnc
    · intro s hsm hdid
      have hfind : ((deleteDoctor db doctorId).2.slots.find?
          fun x => x.id == s.id && x.isActive) = none := by
        rw [List.find?_eq_none]
        intro x hx
        rw [hdel] at hx
        obtain ⟨hxmem, hxd⟩ := List.mem_filter.mp hx
        intro hpx
        have hxid : x.id = s.id := by
          have h1 := ((Bool.and_eq_true _ _).mp hpx).1
          simpa using h1
        have hxs : x = s := nodup_slot_ids_unique db.slots hnd x s hxmem hsm hxid
        subst hxs
        simp [hdid] at hxd
      rw [getSlotWithMetaById, hfind]

/-- Witness for `deleteDoctor_contract`: deleting doctor 0 removes slot 1 and
its CONFIRMED booking, and the slot is no longer retrievable. -/
theorem deleteDoctor_contract_witness :
    (deleteDoctor exDbBooked 0).1 = .ok () ∧
    getSlotWithMetaById (deleteDoctor exDbBooked 0).2 1 = none ∧
    (deleteDoctor exDbBooked 0).2.bookings = [] := by
  obtain ⟨-, h⟩ := deleteDoctor_contract exDbBooked 0
  obtain ⟨h1, -, -, -, h5⟩ := h (by decide) (by decide)
  exact ⟨h1, h5 exSlotBooked (by decide) (by decide), by decide⟩

theorem find?_map_softDelete (l : List Slot) (slotId : Nat) (s : Slot)
    (h : l.find? (fun x => x.id == slotId) = some s) :
    (l.map fun x => if x.id == slotId then { x with isActive := false } else x).find?
      (fun x => x.id == slotId) = some { s with isActive := false } := by
  induction l with
  | nil => simp at h
  | cons x xs ih =>
    by_cases hx : (x.id == slotId) = true
    · have hxs : x = s := by
        rw [List.find?_cons] at h
        simpa [hx] using h
      subst hxs
      have hpred : (({ x with isActive := false } : Slot).id == slotId) = true := hx
      simp only [List.map_cons]
      rw [if_pos hx, List.find?_cons, hpred]
    · have h2 : xs.find? (fun y => y.id == slotId) = some s := by
        rw [List.find?_cons] at h
        simpa [hx] using h
      have hxf : (x.id == slotId) = false := by simpa using hx
      simp only [List.map_cons]
      rw [if_neg hx, List.find?_cons, hxf]
      exact ih h2

/-- C7 (soft-delete visibility): after a successful `softDeleteSlot(slotId)`
the slot no longer appears in `getAllSlotsWithMeta` and
`getSlotWithMetaById(slotId)` returns `none`, while `getBookingById` is
unchanged for every booking id; the booking table is untouched and the slot
row itself remains in storage, now inactive. -/
theorem softDeleteSlot_visibility (db : DB) (slotId : Nat) (s : Slot)
    (hs : findSlot db slotId = some s) :
    (softDeleteSlot db slotId).1 = .ok () ∧
    (∀ m ∈ getAllSlotsWithMeta (softDeleteSlot db slotId).2, m.id ≠ slotId) ∧
    getSlotWithMetaById (softDeleteSlot db slotId).2 slotId = none ∧
    (∀ bookingId, getBookingById (softDeleteSlot db slotId).2 bookingId =
      getBookingById db bookingId) ∧
    (softDeleteSlot db slotId).2.bookings = db.bookings ∧
    findSlot (softDeleteSlot db slotId).2 slotId = some { s with isActive := false } := by
  have hAny : (db.slots.any fun x => x.id == slotId) = true :=
    any_of_find?_eq_some db.slots _ s hs
  have hdel : softDeleteSlot db slotId =
      (.ok (),
        { db with
          slots := db.slots.map fun x =>
            if x.id == slotId then { x with isActive := false } else x }) := by
    rw [softDeleteSlot, if_pos hAny]
  refine ⟨by rw [hdel], ?_, ?_, fun _ => by rw [hdel]; rfl, by rw [hdel], ?_⟩
  · intro m hm hmid
    rw [hdel] at hm
    obtain ⟨x, hx, hfx⟩ := List.mem_filterMap.mp hm
    obtain ⟨y, hy, rfl⟩ := List.mem_map.mp hx
    by_cases hyid : (y.id == slotId) = true
    · rw [if_pos hyid] at hfx
      simp at hfx
    · rw [if_neg hyid] at hfx
      cases hya : y.isActive with
      | false => rw [hya] at hfx; simp at hfx
      | true =>
        rw [hya] at hfx
        simp only [if_true] at hfx
        obtain ⟨d, -, rfl⟩ := Option.map_eq_some'.mp hfx
        have : (y.id == slotId) = true := by
          simpa [slotMetaRow] using congrArg (fun z => z == slotId) hmid
        exact absurd this hyid
  · have hfind : (((softDeleteSlot db slotId).2).slots.find?
        fun x => x.id == slotId && x.isActive) = none := by
      rw [hdel, List.find?_eq_none]
      intro x hx
      obtain ⟨y, hy, rfl⟩ := List.mem_map.mp hx
      by_cases hyid : (y.id == slotId) = true
      · rw [if_pos hyid]
        simp
      · have hyf : (y.id == slotId) = false := by simpa using hyid
        rw [if_neg hyid]
        simp [hyf]
    rw [getSlotWithMetaById, hfind]
  · rw [hdel]
    exact find?_map_softDelete db.slots slotId s hs

/-- Witness for `softDeleteSlot_visibility`: soft-deleting slot 1 succeeds,
hides it from the by-id availability lookup, and leaves its CONFIRMED
booking 100 retrievable unchanged. -/
theorem softDeleteSlot_visibility_witness :
    (softDeleteSlot exDbBooked 1).1 = .ok () ∧
    getSlotWithMetaById (softDeleteSlot exDbBooked 1).2 1 = none ∧
    getBookingById (softDeleteSlot exDbBooked 1).2 100 = some exBooking := by
  obtain ⟨h1, -, h3, h4, -, -⟩ := softDeleteSlot_visibility exDbBooked 1 exSlotBooked (by decide)
  refine ⟨h1, h3, ?_⟩
  rw [h4 100]
  decide

theorem map_softDelete_idem (l : List Slot) (slotId : Nat) :
    ((l.map fun x => if x.id == slotId then { x with isActive := false } else x).map
        fun x => if x.id == slotId then { x with isActive := false } else x) =
      l.map fun x => if x.id == slotId then { x with isActive := false } else x := by
  induction l with
  | nil => rfl
  | cons x xs ih =>
    simp only [List.map_cons, ih]
    by_cases hx : (x.id == slotId) = true
    · simp [if_pos hx, hx]
    · simp [if_neg hx, hx]

/-- C10 (idempotence of soft delete): on an existing slot, a second
`softDeleteSlot` call on the already-inactive slot also succeeds — it does
not fail with `SlotNotFound` — and leaves the persisted state exactly as
after the first call; the booking table is the original one throughout. -/
theorem softDeleteSlot_idempotent (db : DB) (slotId : Nat) (s : Slot)
    (hs : findSlot db slotId = some s) :
    (softDeleteSlot db slotId).1 = .ok () ∧
    (softDeleteSlot (softDeleteSlot db slotId).2 slotId).1 = .ok () ∧
    (softDeleteSlot (softDeleteSlot db slotId).2 slotId).2 = (softDeleteSlot db slotId).2 ∧
    (softDeleteSlot (softDeleteSlot db slotId).2 slotId).2.bookings = db.bookings := by
  have hAny : (db.slots.any fun x => x.id == slotId) = true :=
    any_of_find?_eq_some db.slots _ s hs
  have hdel : softDeleteSlot db slotId =
      (.ok (),
        { db with
          slots := db.slots.map fun x =>
            if x.id == slotId then { x with isActive := false } else x }) := by
    rw [softDeleteSlot, if_pos hAny]
  have hfind2 : ((softDeleteSlot db slotId).2.slots.find? fun x => x.id == slotId) =
      some { s with isActive := false } := by
    rw [hdel]
    exact find?_map_softDelete db.slots slotId s hs
  have hAny2 : ((softDeleteSlot db slotId).2.slots.any fun x => x.id == slotId) = true :=
    any_of_find?_eq_some _ _ _ hfind2
  have hdel2 : softDeleteSlot (softDeleteSlot db slotId).2 slotId =
      (.ok (),
        { (softDeleteSlot db slotId).2 with
          slots := (softDeleteSlot db slotId).2.slots.map fun x =>
            if x.id == slotId then { x with isActive := false } else x }) := by
    rw [softDeleteSlot, if_pos hAny2]
  refine ⟨by rw [hdel], by rw [hdel2], ?_, ?_⟩
  · rw [hdel2, hdel]
    exact congrArg (fun l => { db with slots := l }) (map_softDelete_idem db.slots slotId)
  · rw [hdel2, hdel]

/-- Witness for `softDeleteSlot_idempotent`: both soft deletes of slot 1
succeed and the state after the second equals the state after the first. -/
theorem softDeleteSlot_idempotent_witness :
    (softDeleteSlot (softDeleteSlot exDb 1).2 1).1 = .ok () ∧
    (softDeleteSlot (softDeleteSlot exDb 1).2 1).2 = (softDeleteSlot exDb 1).2 := by
  obtain ⟨-, h2, h3, -⟩ := softDeleteSlot_idempotent exDb 1 exSlot (by decide)
  exact ⟨h2, h3⟩

/-- C8 (availability formula): every record returned by
`getAllSlotsWithMeta` or `getSlotWithMetaById` satisfies
`availableSeats = capacity - confirmedCount` in exact integer arithmetic
(negative values included), with `confirmedCount` the number of CONFIRMED
bookings of that slot in the bookings table. -/
theorem availabilityFormula (db : DB) :
    (∀ m ∈ getAllSlotsWithMeta db,
      m.availableSeats = (m.capacity : Int) - (m.confirmedCount : Int) ∧
      m.confirmedCount = countConfirmedBookings db.bookings m.id) ∧
    (∀ slotId m, getSlotWithMetaById db slotId = some m →
      m.availableSeats = (m.capacity : Int) - (m.confirmedCount : Int) ∧
      m.confirmedCount = countConfirmedBookings db.bookings m.id ∧
      m.id = slotId) := by
  constructor
  · intro m hm
    obtain ⟨x, hx, hfx⟩ := List.mem_filterMap.mp hm
    cases hxa : x.isActive with
    | false =>
      rw [hxa] at hfx
      simp at hfx
    | true =>
      rw [hxa] at hfx
      simp only [if_true] at hfx
      obtain ⟨d, -, rfl⟩ := Option.map_eq_some'.mp hfx
      exact ⟨rfl, rfl⟩
  · intro slotId m h
    cases hf : db.slots.find? fun x => x.id == slotId && x.isActive with
    | none =>
      simp [getSlotWithMetaById, hf] at h
    | some x =>
      have hpx : (x.id == slotId && x.isActive) = true := by
        have := List.find?_some hf
        simpa using this
      have hxid : x.id = slotId := by
        have h1 := ((Bool.and_eq_true _ _).mp hpx).1
        simpa using h1
      cases hd : db.doctors.find? fun y => y.id == x.doctorId with
      | none =>
        simp [getSlotWithMetaById, hf, hd] at h
      | some d =>
        have hm : m = slotMetaRow db x d := by
          simp only [getSlotWithMetaById, hf, hd, Option.some.injEq] at h
          exact h.symm
        subst hm
        exact ⟨rfl, rfl, hxid⟩

/-- Witness for `availabilityFormula`: the slot whose capacity 0 lies below
its confirmed count 1 is returned with `availableSeats = -1`, satisfying the
formula with a negative value. -/
theorem availabilityFormula_witness :
    getSlotWithMetaById exDbOverbooked 1 = some exMetaOverbooked ∧
    exMetaOverbooked.availableSeats =
      (exMetaOverbooked.capacity : Int) - (exMetaOverbooked.confirmedCount : Int) ∧
    exMetaOverbooked.confirmedCount =
      countConfirmedBookings exDbOverbooked.bookings exMetaOverbooked.id ∧
    exMetaOverbooked.availableSeats = -1 := by
  obtain ⟨ha, hb, -⟩ := (availabilityFormula exDbOverbooked).2 1 exMetaOverbooked (by decide)
  exact ⟨by decide, ha, hb, by decide⟩

/-- C9 (code-bug evidence): the 500 branch of `handleCreateBooking` echoes
the thrown error's message as the response body, so two internal failures
with different messages produce different 500 bodies, and the internal
message reaches the client; the `errorHandler` middleware likewise places the
message in its `details` field.  This contradicts the claimed fixed generic
500 body. -/
theorem internalFailureResponse_leaks_message :
    bookingFailureResponse "connection refused" = (500, "connection refused") ∧
    bookingFailureResponse "timeout" = (500, "timeout") ∧
    bookingFailureResponse "connection refused" ≠ bookingFailureResponse "timeout" ∧
    (errorHandlerResponse "connection refused").2.2 = "connection refused" := by decide

end Modex
